import Mathlib

/-!
Shallow embedding of `projects/land_cover/cnn/model/CNNPipeline.py` and proofs
about the claims of its specification.  Machine integers are modelled as
`ℕ`/`ℤ`; the float arithmetic of the preprocessing pipeline is modelled over
`ℚ` (exact arithmetic; the claims settled here are about the order and choice
of operations, not about rounding).
-/

namespace CNNPipeline

/-! ### C1: the tiler construction in `Predict._predict` (lines 470-473)

The code constructs
`ImageSlicer(img.shape, tile_size=(self.tile_size, self.tile_size),
tile_step=(self.overlap, self.overlap))`:
the configured `overlap` value is passed directly as the tiler's `tile_step`.
-/

/-- The pair of keyword arguments `(tile_size, tile_step)` that
`Predict._predict` passes when constructing the tiler:
`tile_size=(self.tile_size, self.tile_size)` and
`tile_step=(self.overlap, self.overlap)`. -/
def predictTilerArgs (tile_size overlap : ℕ) : (ℕ × ℕ) × (ℕ × ℕ) :=
  ((tile_size, tile_size), (overlap, overlap))

/-- Modelled from the spec: number of tiles along one axis of the tiler
(`TileIndexer`); the tiler itself (`pytorch_toolbelt`'s `ImageSlicer`) is an
external collaborator, not part of this repository.  Tiles start at 0 and
advance by `step`; a final clamped tile is added when the stride does not land
exactly on `len - tile`. -/
def nTiles1D (len tile step : ℕ) : ℕ :=
  (len - tile + step - 1) / step + 1

/-- Modelled from the spec: the origin of the `i`-th tile along one axis;
the last tile in each row/column is clamped so it does not exceed the raster
bound (shifted inward rather than padded). -/
def origin1D (len tile step i : ℕ) : ℕ :=
  min (i * step) (len - tile)

/-- Modelled from the spec: the ordered sequence of tile origins along one
axis, generated starting at 0 and advancing by `step`, with clamping at the
bound. -/
def origins1D (len tile step : ℕ) : List ℕ :=
  (List.range (nTiles1D len tile step)).map (origin1D len tile step)

/-! ### C2: the LOADED preprocessing in `Predict._predict` (lines 457-464)

After `astype(np.int16)` the code divides by `np.iinfo(np.int16).max = 32767`
first (`img = img / np.iinfo(img.dtype).max`) and only then applies
`modify_pixel_extremity`, i.e. `np.clip(img, self.data_min, self.data_max)`.
-/

/-- Semantics of `np.clip(x, lo, hi)`: values below `lo` become `lo`, values
above `hi` become `hi` (computed as `min (max x lo) hi`). -/
def npClip (x lo hi : ℚ) : ℚ :=
  min (max x lo) hi

/-- One pixel through the LOADED preprocessing of `Predict._predict`: the
array has been cast to `int16`, so the dtype maximum is `32767`; the code
normalizes by that maximum first and clips the normalized value to
`[data_min, data_max]` afterwards. -/
def predictLoadedPixel (data_min data_max v : ℚ) : ℚ :=
  npClip (v / 32767) data_min data_max

/-- The LOADED preprocessing applied to a whole (flattened) image. -/
def predictLoaded (data_min data_max : ℚ) (img : List ℚ) : List ℚ :=
  img.map (predictLoadedPixel data_min data_max)

/-- The pixel pipeline in the order the claim states it (from the spec's
words): clip the raw value to `[data_min, data_max]` first, then normalize by
the dtype maximum. -/
def specClipThenNormPixel (data_min data_max v : ℚ) : ℚ :=
  npClip v data_min data_max / 32767

/-- The pixel pipeline in the order the code performs it, written from the
amended spec words: normalize by the dtype maximum first, then clip. -/
def specNormThenClip (data_min data_max : ℚ) (img : List ℚ) : List ℚ :=
  img.map (fun v => npClip (v / 32767) data_min data_max)

/-! ### C7: model-checkpoint autodiscovery in `Predict.predict` (lines 400-405)

When `self.model_filename` is absent the code runs
`max(glob.glob(os.path.join(self.model_dir, '*.pt')), key=os.path.getctime)`:
it selects by `ctime` (inode status-change time), not by `mtime`.
-/

/-- The `*.pt` pattern of `glob.glob(os.path.join(self.model_dir, '*.pt'))`:
the file name ends in `.pt` (checked on the character list so that it
evaluates by kernel reduction). -/
def matchesPtGlob (s : String) : Bool :=
  s.data.reverse.take 3 == ['t', 'p', '.']

/-- A candidate checkpoint file with its two file-system timestamps. -/
structure PtFile where
  name : String
  mtime : ℤ
  ctime : ℤ
deriving DecidableEq, Repr

/-- Semantics of Python's `max(xs, key=key)`: scans left to right and replaces
the current best only on a strictly greater key, so the first maximiser is
returned; `none` on an empty list (Python raises `ValueError`). -/
def pyMax (key : PtFile → ℤ) : List PtFile → Option PtFile
  | [] => none
  | f :: rest => some (rest.foldl (fun best g => if key g > key best then g else best) f)

/-- The checkpoint `Predict.predict` autodiscovers: among the `*.pt` files of
the model directory, the one with the latest `ctime`. -/
def selectModelFile (files : List PtFile) : Option PtFile :=
  pyMax (fun f => f.ctime) (files.filter (fun f => matchesPtGlob f.name))

/-- The selection the claim states (from the spec's words): among the `*.pt`
files, the one with the latest modification time (`mtime`). -/
def selectByMtime (files : List PtFile) : Option PtFile :=
  pyMax (fun f => f.mtime) (files.filter (fun f => matchesPtGlob f.name))

/-! ### C3: idempotent skip in `Predict._predict` (lines 438-447, 521-525)

`_predict` derives `raster_name = os.path.join(self.inference_output_dir,
filename[:-4].split('/')[-1] + '_pred.tif')` and only loads the raster and
runs inference `if not os.path.isfile(raster_name)`; otherwise it just logs
that the output was already predicted.  Paths are modelled as character
lists, the file system as an association list from path to an abstract
content token.
-/

/-- Python's `s[:-4]`: drop the last four characters. -/
def dropLast4 (s : List Char) : List Char :=
  s.take (s.length - 4)

/-- Python's `s.split('/')`: split into (possibly empty) segments at every
slash. -/
def splitSlash : List Char → List (List Char)
  | [] => [[]]
  | c :: rest =>
    match splitSlash rest with
    | [] => [[]]
    | cur :: parts => if c = '/' then [] :: cur :: parts else (c :: cur) :: parts

/-- Python's `s.split('/')[-1]`: the last path segment. -/
def lastSegment (s : List Char) : List Char :=
  (splitSlash s).getLastD []

/-- Semantics of `os.path.join(d, f)` for a directory path without a trailing
slash and a relative file name (the only shapes produced by this pipeline). -/
def pathJoinChars (d f : List Char) : List Char :=
  d ++ '/' :: f

/-- The output path `_predict` computes for an input `filename`:
`os.path.join(self.inference_output_dir, filename[:-4].split('/')[-1] + '_pred.tif')`. -/
def rasterNameOf (outdir filename : List Char) : List Char :=
  pathJoinChars outdir (lastSegment (dropLast4 filename) ++ "_pred.tif".data)

/-- The observable side effects of one `_predict` call. -/
inductive PredictAction where
  | logFile (f : List Char)
  | openRaster (f : List Char)
  | runModel (f : List Char)
  | writeRaster (f : List Char)
  | logSaved (f : List Char)
  | logSkip (f : List Char)
deriving DecidableEq, Repr

/-- A file system: association list from path to an abstract content token. -/
def FileSys : Type := List (List Char × ℕ)

/-- Semantics of `os.path.isfile`. -/
def isfile (fs : FileSys) (name : List Char) : Bool :=
  fs.any (fun e => e.1 == name)

/-- `Predict._predict` on one input file: log the file name, compute
`raster_name`; if the output already exists only log the skip, otherwise
open the raster, run tiled inference and write the output (the inference
itself is the external model collaborator; `newContent` stands for the bytes
it would produce). -/
def predictOne (outdir : List Char) (fs : FileSys) (newContent : ℕ)
    (filename : List Char) : List PredictAction × FileSys :=
  let raster_name := rasterNameOf outdir filename
  if isfile fs raster_name then
    ([.logFile filename, .logSkip raster_name], fs)
  else
    ([.logFile filename, .openRaster filename, .runModel filename,
      .writeRaster raster_name, .logSaved raster_name],
     (raster_name, newContent) :: fs)

/-! ### C4: the batch loop in `Predict.predict` (lines 430-432)

`for r in self.data_predict: self._predict(r)` — there is no `try`/`except`
around the call, so an exception raised while processing one file propagates
and ends the loop.  `proc` abstracts one `_predict` call, which either
returns or raises (`Except.error` carries the exception text); the result is
the list of files on which `proc` was invoked, and the exception, if any,
that escaped `predict`.
-/

def predictBatch (proc : List Char → Except (List Char) Unit) :
    List (List Char) → List (List Char) × Option (List Char)
  | [] => ([], none)
  | f :: rest =>
    match proc f with
    | .error e => ([f], some e)
    | .ok _ =>
      let r := predictBatch proc rest
      (f :: r.1, r.2)

/-- A per-file step that raises on `a.tif` and succeeds elsewhere. -/
def demoProc : List Char → Except (List Char) Unit := fun f =>
  if f == "a.tif".data then .error "io error".data else .ok ()

/-! ### C5 and C6: `Train.train_loop` (lines 303-381)

Per epoch the code increments `scheduler_counter`, computes the epoch's mean
validation loss (`compare_loss`), and when `compare_loss < self.min_loss`
(initially `inf`) resets the counter, sets
`self.min_loss = min(compare_loss, self.min_loss)` and saves a checkpoint;
afterwards, when `scheduler_counter > 5`, it steps the LR scheduler and
resets the counter.  The model, loaders and criterion are external
collaborators: the loop is driven by the list of per-epoch mean validation
losses.
-/

/-- State of `train_loop` observable across epochs: the running minimum
validation loss (`none` models the initial `float('inf')`), the
`scheduler_counter`, the epochs at which `torch.save` ran, and the epochs at
which `self.scheduler.step()` ran. -/
structure TrainState where
  minLoss : Option ℚ
  counter : ℕ
  saved : List ℕ
  decays : List ℕ
deriving DecidableEq, Repr

/-- `compare_loss < self.min_loss`, with `none` standing for `inf`. -/
def isBest (loss : ℚ) (m : Option ℚ) : Bool :=
  match m with
  | none => true
  | some v => decide (loss < v)

/-- `min(compare_loss, self.min_loss)`, with `none` standing for `inf`. -/
def pyMin (loss : ℚ) (m : Option ℚ) : ℚ :=
  match m with
  | none => loss
  | some v => min loss v

/-- One epoch of `train_loop`: increment the counter; on a strict improvement
reset the counter, update the minimum and save a checkpoint; then, when the
counter exceeds 5, step the scheduler and reset the counter. -/
def epochStep (s : TrainState) (epoch : ℕ) (loss : ℚ) : TrainState :=
  let s2 : TrainState :=
    if isBest loss s.minLoss then
      { s with counter := 0, minLoss := some (pyMin loss s.minLoss),
               saved := s.saved ++ [epoch] }
    else
      { s with counter := s.counter + 1 }
  if s2.counter > 5 then
    { s2 with counter := 0, decays := s2.decays ++ [epoch] }
  else s2

/-- The `for epoch in range(self.max_epoch)` loop, driven by the per-epoch
mean validation losses. -/
def runEpochs (s : TrainState) (e : ℕ) : List ℚ → TrainState
  | [] => s
  | l :: rest => runEpochs (epochStep s e l) (e + 1) rest

/-- `Train.train_loop`, starting from `min_loss = inf` and
`scheduler_counter = 0` at epoch 0. -/
def train_loop (losses : List ℚ) : TrainState :=
  runEpochs ⟨none, 0, [], []⟩ 0 losses

/-- The minimum of a list of losses, folded onto an optional initial
minimum (`none` standing for `inf`). -/
def valMinFrom (m : Option ℚ) : List ℚ → Option ℚ
  | [] => m
  | l :: rest => valMinFrom (some (pyMin l m)) rest

/-- The minimum validation loss over a list of epochs. -/
def valMin (losses : List ℚ) : Option ℚ :=
  valMinFrom none losses

/-- Epoch `i` improves: its validation loss is strictly below the running
minimum over all earlier epochs (`false` past the end of the run). -/
def improves (losses : List ℚ) (i : ℕ) : Bool :=
  match losses.get? i with
  | none => false
  | some l => isBest l (valMin (losses.take i))

/-- Number of consecutive non-improving epochs immediately before epoch `n`
(so `streakEnd losses (i+1)` is the length of the non-improving streak ending
at and including epoch `i`, when epoch `i` does not improve). -/
def streakEnd (losses : List ℚ) : ℕ → ℕ
  | 0 => 0
  | n + 1 => if improves losses n then 0 else streakEnd losses n + 1

/-! ### Helper lemmas -/

theorem nextMin_eq (l : ℚ) (m : Option ℚ) :
    (if isBest l m then some (pyMin l m) else m) = some (pyMin l m) := by
  cases m with
  | none => simp [isBest]
  | some v =>
    by_cases h : l < v
    · simp [isBest, h]
    · simp [isBest, h, pyMin, min_eq_right (le_of_not_lt h)]

theorem valMinFrom_append (m : Option ℚ) (xs : List ℚ) (l : ℚ) :
    valMinFrom m (xs ++ [l]) = some (pyMin l (valMinFrom m xs)) := by
  induction xs generalizing m with
  | nil => rfl
  | cons x r ih =>
    simp only [List.cons_append, valMinFrom]
    exact ih (some (pyMin x m))

theorem isBest_valMinFrom (l : ℚ) (m : Option ℚ) (xs : List ℚ) :
    isBest l (valMinFrom m xs) = true ↔ (isBest l m = true ∧ ∀ x ∈ xs, l < x) := by
  induction xs generalizing m with
  | nil => simp [valMinFrom]
  | cons x r ih =>
    simp only [valMinFrom]
    rw [ih (some (pyMin x m))]
    cases m with
    | none =>
      simp only [isBest, pyMin, List.forall_mem_cons, decide_eq_true_eq, true_and]
    | some v =>
      simp only [isBest, pyMin, List.forall_mem_cons, decide_eq_true_eq, lt_min_iff]
      tauto

theorem runEpochs_append (s : TrainState) (e : ℕ) (xs : List ℚ) (x : ℚ) :
    runEpochs s e (xs ++ [x]) = epochStep (runEpochs s e xs) (e + xs.length) x := by
  induction xs generalizing s e with
  | nil => simp [runEpochs]
  | cons a r ih =>
    simp only [List.cons_append, runEpochs, List.length_cons, List.append_eq]
    rw [ih]
    congr 1
    omega

/-- The full state of `train_loop` after the first `n` epochs, expressed
declaratively: the running minimum is the minimum of the first `n` losses,
the counter is the current non-improving streak modulo 6, checkpoints were
saved exactly at the improving epochs, and the scheduler stepped exactly at
the non-improving epochs closing a streak of a multiple of 6. -/
theorem trainInvariant (losses : List ℚ) (n : ℕ) (hn : n ≤ losses.length) :
    runEpochs ⟨none, 0, [], []⟩ 0 (losses.take n) =
      ⟨valMin (losses.take n),
       streakEnd losses n % 6,
       (List.range n).filter (fun i => improves losses i),
       (List.range n).filter
         (fun i => !(improves losses i) && (streakEnd losses (i + 1) % 6 == 0))⟩ := by
  induction n with
  | zero => simp [runEpochs, valMin, valMinFrom, streakEnd]
  | succ n ih =>
    have hn' : n ≤ losses.length := by omega
    have hlt : n < losses.length := by omega
    obtain ⟨l, hl⟩ : ∃ l, losses[n]? = some l :=
      ⟨losses[n], List.getElem?_eq_getElem hlt⟩
    have htake : losses.take (n + 1) = losses.take n ++ [l] := by
      rw [List.take_succ, hl]
      rfl
    have hlen : (losses.take n).length = n := by
      rw [List.length_take]
      omega
    have himp : improves losses n = isBest l (valMin (losses.take n)) := by
      unfold improves
      rw [List.get?_eq_getElem?, hl]
    have hmin2 : valMin (losses.take n ++ [l]) = some (pyMin l (valMin (losses.take n))) :=
      valMinFrom_append none (losses.take n) l
    rw [htake, runEpochs_append, ih hn', hlen, hmin2]
    have hrange : List.range (n + 1) = List.range n ++ [n] := by
      simpa using List.range_succ (n := n)
    have hfil1 :
        (List.range (n + 1)).filter (fun i => improves losses i) =
          (List.range n).filter (fun i => improves losses i) ++
            (if improves losses n then [n] else []) := by
      rw [hrange, List.filter_append]
      simp [List.filter_singleton]
    have hfil2 :
        (List.range (n + 1)).filter
            (fun i => !(improves losses i) && (streakEnd losses (i + 1) % 6 == 0)) =
          (List.range n).filter
            (fun i => !(improves losses i) && (streakEnd losses (i + 1) % 6 == 0)) ++
            (if !(improves losses n) && (streakEnd losses (n + 1) % 6 == 0)
             then [n] else []) := by
      rw [hrange, List.filter_append]
      simp [List.filter_singleton]
    rw [hfil1, hfil2]
    have hstreak : streakEnd losses (n + 1)
        = if improves losses n then 0 else streakEnd losses n + 1 := rfl
    by_cases hbest : isBest l (valMin (losses.take n)) = true
    · -- improving epoch: counter reset, checkpoint saved, no scheduler step
      have h1 : improves losses n = true := by rw [himp, hbest]
      simp [epochStep, hbest, h1, hstreak]
    · -- non-improving epoch
      have hbest2 : isBest l (valMin (losses.take n)) = false := by
        simp only [Bool.not_eq_true] at hbest
        exact hbest
      have h1 : improves losses n = false := by rw [himp, hbest2]
      have hmin : some (pyMin l (valMin (losses.take n))) = valMin (losses.take n) := by
        have h2 := nextMin_eq l (valMin (losses.take n))
        rw [hbest2] at h2
        simpa using h2.symm
      by_cases hc : streakEnd losses n % 6 + 1 > 5
      · -- the streak reaches 6: scheduler steps, counter resets
        have hmod : streakEnd losses (n + 1) % 6 = 0 := by
          rw [hstreak, h1]
          simp only [Bool.false_eq_true, if_false]
          omega
        simp [epochStep, hbest2, h1, hc, hmin, hmod]
      · -- mid-streak: counter just increments, no scheduler step
        have hmod : streakEnd losses (n + 1) % 6 = streakEnd losses n % 6 + 1 := by
          rw [hstreak, h1]
          simp only [Bool.false_eq_true, if_false]
          omega
        have hdecide : (streakEnd losses (n + 1) % 6 == 0) = false := by
          rw [hmod]
          simp only [beq_eq_false_iff_ne, ne_eq]
          omega
        simp [epochStep, hbest2, h1, hc, hmin, hmod, hdecide]

/-! ### Helper lemmas (selection) -/

theorem foldl_pyMax_spec (key : PtFile → ℤ) (l : List PtFile) (b : PtFile) :
    (l.foldl (fun best g => if key g > key best then g else best) b) ∈ b :: l ∧
    key b ≤ key (l.foldl (fun best g => if key g > key best then g else best) b) ∧
    ∀ x ∈ l, key x ≤ key (l.foldl (fun best g => if key g > key best then g else best) b) := by
  induction l generalizing b with
  | nil => simp
  | cons g rest ih =>
    simp only [List.foldl_cons]
    by_cases h : key g > key b
    · simp only [if_pos h]
      obtain ⟨hmem, hle, hall⟩ := ih g
      refine ⟨?_, le_trans (le_of_lt h) hle, ?_⟩
      · rcases List.mem_cons.mp hmem with h1 | h1
        · simp [h1]
        · exact List.mem_cons_of_mem b (List.mem_cons_of_mem g h1)
      · intro x hx
        rcases List.mem_cons.mp hx with rfl | hx
        · exact hle
        · exact hall x hx
    · simp only [if_neg h]
      obtain ⟨hmem, hle, hall⟩ := ih b
      refine ⟨?_, hle, ?_⟩
      · rcases List.mem_cons.mp hmem with h1 | h1
        · simp [h1]
        · exact List.mem_cons_of_mem b (List.mem_cons_of_mem g h1)
      · intro x hx
        rcases List.mem_cons.mp hx with rfl | hx
        · exact le_trans (le_of_not_lt h) hle
        · exact hall x hx

theorem pyMax_spec (key : PtFile → ℤ) (l : List PtFile) (f : PtFile) (hf : f ∈ l) :
    ∃ g, pyMax key l = some g ∧ g ∈ l ∧ key f ≤ key g := by
  cases l with
  | nil => cases hf
  | cons a rest =>
    obtain ⟨hmem, hle, hall⟩ := foldl_pyMax_spec key rest a
    refine ⟨_, rfl, hmem, ?_⟩
    rcases List.mem_cons.mp hf with rfl | hf
    · exact hle
    · exact hall f hf

/-! ### C1 theorems -/

/-- C1 counterexample: with `tile_size = 256` and configured `overlap = 64`,
`_predict` passes `tile_step = (64, 64)` to the tiler, so on a raster axis of
length 512 adjacent tile origins are 0 and 64 — a stride of 64, not
`tile_size - overlap = 192` as the claim states. -/
theorem C1_counterexample :
    (predictTilerArgs 256 64).2 = (64, 64) ∧
    (origins1D 512 256 ((predictTilerArgs 256 64).2.1)).take 2 = [0, 64] ∧
    (64 : ℕ) ≠ 256 - 64 := by
  decide

/-- C1 amended: `_predict` passes the configured `overlap` value itself as the
tiler's `tile_step`, so the stride between adjacent (unclamped) tile origins
equals `overlap`; the number of pixels shared between adjacent tiles is
`tile_size - overlap`, and provided `0 < overlap ≤ tile_size ≤ len` the tile
set fully covers the raster axis. -/
theorem C1_amended (ts ov len : ℕ) (hov : 0 < ov) (hts : ov ≤ ts) (hlen : ts ≤ len) :
    (predictTilerArgs ts ov).2 = (ov, ov) ∧
    (∀ i, (i + 1) * ov ≤ len - ts →
      origin1D len ts ov (i + 1) - origin1D len ts ov i = ov) ∧
    (∀ x, x < len → ∃ o ∈ origins1D len ts ov, o ≤ x ∧ x < o + ts) := by
  refine ⟨rfl, ?_, ?_⟩
  · intro i hi
    have h1 : i * ov ≤ (i + 1) * ov := Nat.mul_le_mul_right ov (Nat.le_succ i)
    unfold origin1D
    rw [min_eq_left hi, min_eq_left (le_trans h1 hi), add_one_mul]
    exact Nat.add_sub_cancel_left (i * ov) ov
  · intro x hx
    by_cases hcase : len - ts ≤ x
    · -- the clamped last tile covers the tail of the axis
      have hkey : len - ts ≤ ((len - ts + ov - 1) / ov) * ov := by
        rw [mul_comm]
        have hq := Nat.div_add_mod (len - ts + ov - 1) ov
        have hr : (len - ts + ov - 1) % ov < ov := Nat.mod_lt _ hov
        generalize ov * ((len - ts + ov - 1) / ov) = m at hq ⊢
        generalize (len - ts + ov - 1) % ov = r at hq hr
        omega
      have hidx : nTiles1D len ts ov - 1 = (len - ts + ov - 1) / ov := by
        unfold nTiles1D
        rw [Nat.add_sub_cancel]
      have hor : origin1D len ts ov (nTiles1D len ts ov - 1) = len - ts := by
        rw [hidx]
        unfold origin1D
        exact min_eq_right hkey
      refine ⟨origin1D len ts ov (nTiles1D len ts ov - 1), ?_, ?_, ?_⟩
      · unfold origins1D
        refine List.mem_map.mpr ⟨nTiles1D len ts ov - 1, List.mem_range.mpr ?_, rfl⟩
        unfold nTiles1D
        rw [Nat.add_sub_cancel]
        exact Nat.lt_succ_self _
      · rw [hor]
        exact hcase
      · rw [hor]
        omega
    · -- an interior tile at origin (x / ov) * ov covers x
      push_neg at hcase
      have hle : (x / ov) * ov ≤ x := Nat.div_mul_le_self x ov
      have hlt : x < (x / ov) * ov + ov := by
        have hq := Nat.div_add_mod x ov
        have hr : x % ov < ov := Nat.mod_lt _ hov
        rw [mul_comm] at hq
        generalize (x / ov) * ov = m at hq ⊢
        generalize x % ov = r at hq hr
        omega
      have hoin : origin1D len ts ov (x / ov) = (x / ov) * ov :=
        min_eq_left (Nat.le_of_lt (lt_of_le_of_lt hle hcase))
      refine ⟨origin1D len ts ov (x / ov), ?_, ?_, ?_⟩
      · unfold origins1D
        refine List.mem_map.mpr ⟨x / ov, List.mem_range.mpr ?_, rfl⟩
        unfold nTiles1D
        have h1 : x / ov ≤ (len - ts + ov - 1) / ov :=
          Nat.div_le_div_right (by omega)
        omega
      · rw [hoin]
        exact hle
      · rw [hoin]
        linarith [hlt, hts]

/-- Witness for C1_amended at `tile_size = 256`, `overlap = 64`, `len = 512`. -/
theorem C1_amended_witness :
    (predictTilerArgs 256 64).2 = (64, 64) ∧
    (∀ i, (i + 1) * 64 ≤ 512 - 256 →
      origin1D 512 256 64 (i + 1) - origin1D 512 256 64 i = 64) ∧
    (∀ x, x < 512 → ∃ o ∈ origins1D 512 256 64, o ≤ x ∧ x < o + 256) :=
  C1_amended 256 64 512 (by decide) (by decide) (by decide)

/-! ### C2 theorems -/

/-- C2 counterexample: with `data_min = 0`, `data_max = 10000` and raw pixel
value 20000 (an `int16` raster), the code produces `20000 / 32767` (normalize
first, then clip — the clip is inert on the normalized value), while the
claimed clip-before-normalize order would produce `10000 / 32767`. -/
theorem C2_counterexample :
    predictLoadedPixel 0 10000 20000 = 20000 / 32767 ∧
    specClipThenNormPixel 0 10000 20000 = 10000 / 32767 ∧
    predictLoadedPixel 0 10000 20000 ≠ specClipThenNormPixel 0 10000 20000 := by
  refine ⟨?_, ?_, ?_⟩ <;> norm_num [predictLoadedPixel, specClipThenNormPixel, npClip]

/-- C2 amended: in the LOADED step the raw values are first normalized by the
dtype maximum (32767 for `int16`) and value-range clipping to
`[data_min, data_max]` is applied afterwards, to the already-normalized
values; consequently, when the configured range satisfies `data_min ≤ 0` and
`1 ≤ data_max` (a raw-scale range), the clip never changes any pixel. -/
theorem C2_amended (dmin dmax : ℚ) (img : List ℚ) (hmin : dmin ≤ 0) (hmax : 1 ≤ dmax) :
    predictLoaded dmin dmax img = specNormThenClip dmin dmax img ∧
    (∀ v ∈ img, 0 ≤ v → v ≤ 32767 → predictLoadedPixel dmin dmax v = v / 32767) := by
  constructor
  · rfl
  · intro v _ hv0 hv1
    unfold predictLoadedPixel npClip
    have h0 : (0 : ℚ) ≤ v / 32767 := by positivity
    have h1 : v / 32767 ≤ 1 := by
      rw [div_le_one (by norm_num)]
      exact hv1
    rw [max_eq_left (le_trans hmin h0), min_eq_left (le_trans h1 hmax)]

/-- Witness for C2_amended at `data_min = 0`, `data_max = 10000`,
image `[20000, 16000]`. -/
theorem C2_amended_witness :
    predictLoaded 0 10000 [20000, 16000] = specNormThenClip 0 10000 [20000, 16000] ∧
    (∀ v ∈ [(20000 : ℚ), 16000], 0 ≤ v → v ≤ 32767 →
      predictLoadedPixel 0 10000 v = v / 32767) :=
  C2_amended 0 10000 [20000, 16000] (by norm_num) (by norm_num)

/-! ### C7 theorems -/

/-- C7 counterexample: with two checkpoints `a.pt` (mtime 10, ctime 1) and
`b.pt` (mtime 1, ctime 10), the code (which keys `max` on `os.path.getctime`)
selects `b.pt`, while selection by latest mtime would pick `a.pt`. -/
theorem C7_counterexample :
    selectModelFile [⟨"a.pt", 10, 1⟩, ⟨"b.pt", 1, 10⟩] = some ⟨"b.pt", 1, 10⟩ ∧
    selectByMtime [⟨"a.pt", 10, 1⟩, ⟨"b.pt", 1, 10⟩] = some ⟨"a.pt", 10, 1⟩ ∧
    selectModelFile [⟨"a.pt", 10, 1⟩, ⟨"b.pt", 1, 10⟩] ≠
      selectByMtime [⟨"a.pt", 10, 1⟩, ⟨"b.pt", 1, 10⟩] := by
  refine ⟨by decide, by decide, by decide⟩

/-- C7 amended: when no checkpoint is explicitly designated, prediction
selects, among the `*.pt` files of the model directory, one with the latest
`ctime` (inode status-change time, `os.path.getctime`), not the latest
`mtime`: the returned file is a `*.pt` file whose ctime is at least that of
every `*.pt` candidate. -/
theorem C7_amended (files : List PtFile) (f : PtFile) (hf : f ∈ files)
    (hpt : matchesPtGlob f.name = true) :
    ∃ g, selectModelFile files = some g ∧ matchesPtGlob g.name = true ∧
      f.ctime ≤ g.ctime := by
  have hmem : f ∈ files.filter (fun f => matchesPtGlob f.name) :=
    List.mem_filter.mpr ⟨hf, hpt⟩
  obtain ⟨g, hsel, hgmem, hle⟩ := pyMax_spec (fun f => f.ctime) _ f hmem
  exact ⟨g, hsel, (List.mem_filter.mp hgmem).2, hle⟩

/-- Witness for C7_amended on the two-file directory of the counterexample. -/
theorem C7_amended_witness :
    ∃ g, selectModelFile [⟨"a.pt", 10, 1⟩, ⟨"b.pt", 1, 10⟩] = some g ∧
      matchesPtGlob g.name = true ∧ (1 : ℤ) ≤ g.ctime :=
  C7_amended [⟨"a.pt", 10, 1⟩, ⟨"b.pt", 1, 10⟩] ⟨"a.pt", 10, 1⟩ (by simp)
    (by decide)

/-! ### C3 theorems -/

/-- C3: when the output raster `<input-stem>_pred.tif` already exists in the
inference output directory at the start of `_predict`, the file is skipped:
the call performs exactly the start-of-call log and the skip log — no raster
is opened, no inference runs, nothing is written — and the file system
(in particular the existing output file) is unchanged. -/
theorem C3_skip_existing (outdir filename : List Char) (fs : FileSys) (c : ℕ)
    (h : isfile fs (rasterNameOf outdir filename) = true) :
    predictOne outdir fs c filename =
      ([.logFile filename, .logSkip (rasterNameOf outdir filename)], fs) := by
  unfold predictOne
  simp only [h, if_true]

/-- Witness for C3_skip_existing: input `/data/scene.tif`, output directory
`out`; the derived output name is `out/scene_pred.tif`, which the file system
already holds. -/
theorem C3_skip_existing_witness :
    isfile [("out/scene_pred.tif".data, 7)] (rasterNameOf "out".data "/data/scene.tif".data) = true ∧
    predictOne "out".data [("out/scene_pred.tif".data, 7)] 3 "/data/scene.tif".data =
      ([.logFile "/data/scene.tif".data,
        .logSkip (rasterNameOf "out".data "/data/scene.tif".data)],
       [("out/scene_pred.tif".data, 7)]) :=
  ⟨by decide,
   C3_skip_existing "out".data "/data/scene.tif".data [("out/scene_pred.tif".data, 7)] 3
     (by decide)⟩

/-! ### C4 theorems -/

/-- C4 counterexample: with two input files `a.tif` and `b.tif` and a
per-file step that raises an I/O error on `a.tif`, the batch loop of
`Predict.predict` invokes `_predict` only on `a.tif`, the exception escapes
`predict` (nothing catches or logs it), and processing does NOT continue to
`b.tif` — refuting the claim that a per-file failure is logged and the run
proceeds with the next input. -/
theorem C4_counterexample :
    predictBatch demoProc ["a.tif".data, "b.tif".data] =
      (["a.tif".data], some "io error".data) ∧
    "b.tif".data ∉ (predictBatch demoProc ["a.tif".data, "b.tif".data]).1 := by
  constructor
  · rfl
  · decide

/-- C4 amended: an I/O or inference failure raised while processing one file
propagates uncaught out of `predict` and aborts the whole batch run: if every
file before `f` succeeds and `f` raises `e`, then exactly the files up to and
including `f` are attempted, the files after `f` are never processed, and the
run ends with the uncaught exception `e`. -/
theorem C4_amended (proc : List Char → Except (List Char) Unit)
    (pre : List (List Char)) (f : List Char) (rest : List (List Char)) (e : List Char)
    (hpre : ∀ g ∈ pre, proc g = .ok ()) (hf : proc f = .error e) :
    predictBatch proc (pre ++ f :: rest) = (pre ++ [f], some e) := by
  induction pre with
  | nil =>
    simp only [List.nil_append]
    unfold predictBatch
    rw [hf]
  | cons g gs ih =>
    have hg : proc g = .ok () := hpre g (List.mem_cons_self g gs)
    have hgs : ∀ x ∈ gs, proc x = .ok () := fun x hx => hpre x (List.mem_cons_of_mem g hx)
    simp only [List.cons_append]
    unfold predictBatch
    rw [hg, ih hgs]

/-- Witness for C4_amended: files `[b.tif, a.tif, c.tif]` under `demoProc`
(which raises on `a.tif`): only `b.tif` and `a.tif` are attempted and the
error escapes. -/
theorem C4_amended_witness :
    predictBatch demoProc (["b.tif".data] ++ "a.tif".data :: ["c.tif".data]) =
      (["b.tif".data] ++ ["a.tif".data], some "io error".data) :=
  C4_amended demoProc ["b.tif".data] "a.tif".data ["c.tif".data] "io error".data
    (by intro g hg
        simp only [List.mem_singleton] at hg
        subst hg
        rfl)
    (by rfl)

/-! ### C5 theorems -/

/-- C5: in every run of `train_loop`, a checkpoint is saved at epoch `i` iff
that epoch's mean validation loss strictly improves on the running minimum —
equivalently, is strictly below every earlier epoch's loss — with exactly one
checkpoint per improving epoch (the saved-epoch list equals the ordered,
duplicate-free list of improving epochs) and none at any other epoch, and the
running minimum ends equal to the minimum of all epoch losses. -/
theorem C5_checkpoint_iff (losses : List ℚ) :
    (train_loop losses).saved =
      (List.range losses.length).filter (fun i => improves losses i) ∧
    (train_loop losses).minLoss = valMin losses ∧
    (∀ i, i < losses.length →
      (improves losses i = true ↔ ∀ x ∈ losses.take i, losses.getD i 0 < x)) := by
  have h := trainInvariant losses losses.length (le_refl _)
  rw [List.take_length] at h
  refine ⟨?_, ?_, ?_⟩
  · rw [train_loop, h]
  · rw [train_loop, h]
  · intro i hi
    obtain ⟨l, hl⟩ : ∃ l, losses[i]? = some l :=
      ⟨losses[i], List.getElem?_eq_getElem hi⟩
    have hgd : losses.getD i 0 = l := by
      rw [List.getD_eq_getElem?_getD, hl]
      rfl
    have himp : improves losses i = isBest l (valMin (losses.take i)) := by
      unfold improves
      rw [List.get?_eq_getElem?, hl]
    rw [himp, hgd, valMin, isBest_valMinFrom]
    simp [isBest]

/-- Witness for C5_checkpoint_iff: validation losses strictly decrease for
three epochs then increase for two; exactly the three improving epochs save a
checkpoint. -/
theorem C5_checkpoint_iff_witness :
    (train_loop [(3 : ℚ), 2, 1, 2, 3]).saved = [0, 1, 2] := by
  have h := (C5_checkpoint_iff [(3 : ℚ), 2, 1, 2, 3]).1
  rw [h]
  decide

/-! ### C6 theorems -/

/-- C6 counterexample: with validation losses [1,2,2,2,2,2], epoch 0 improves
and epochs 1-5 are 5 consecutive epochs without improvement, yet no
learning-rate decay occurs (the code checks `scheduler_counter > 5`); the
decay fires only after a 6th consecutive non-improving epoch, as the run
[1,2,2,2,2,2,2] shows. -/
theorem C6_counterexample :
    (improves [(1 : ℚ), 2, 2, 2, 2, 2] 1 = false ∧
     improves [(1 : ℚ), 2, 2, 2, 2, 2] 2 = false ∧
     improves [(1 : ℚ), 2, 2, 2, 2, 2] 3 = false ∧
     improves [(1 : ℚ), 2, 2, 2, 2, 2] 4 = false ∧
     improves [(1 : ℚ), 2, 2, 2, 2, 2] 5 = false) ∧
    (train_loop [(1 : ℚ), 2, 2, 2, 2, 2]).decays = [] ∧
    (train_loop [(1 : ℚ), 2, 2, 2, 2, 2, 2]).decays = [6] := by
  decide

/-- C6 amended: the learning-rate schedule decays exactly at the
non-improving epochs closing a streak of consecutive non-improving epochs of
length a multiple of 6 — i.e. after 6 (not 5) consecutive epochs without
improvement — and the no-improvement counter always equals the current
streak length modulo 6, so it is zero right after any decay and after any
improving epoch. -/
theorem C6_amended (losses : List ℚ) :
    (train_loop losses).decays =
      (List.range losses.length).filter
        (fun i => !(improves losses i) && (streakEnd losses (i + 1) % 6 == 0)) ∧
    (train_loop losses).counter = streakEnd losses losses.length % 6 := by
  have h := trainInvariant losses losses.length (le_refl _)
  rw [List.take_length] at h
  constructor
  · rw [train_loop, h]
  · rw [train_loop, h]

/-! ### C8: `Predict.arr_to_tif` (lines 538-574), called with `ndval=-9999`
(line 518)

`arr_to_tif` reads the source's mask band (`src.read_masks(1)`: uint8, 0 at
no-data pixels and 255 at valid ones, cast to int16), casts the prediction
array to int16, rewrites mask entries equal to 0 to `ndval`, overwrites
prediction pixels at positions where the rewritten mask equals `ndval`, and
writes a single band with `count=1` and `dtype='int16'` into the source's
geospatial profile.  Arrays are modelled flattened, the profile as a record.
-/

/-- The geospatial profile (`src.profile`) of a raster. -/
structure RasterMeta where
  count : ℕ
  dtype : String
  width : ℕ
  height : ℕ
  crs : String
deriving DecidableEq, Repr

/-- `astype('int16')` on one value: wrap into [-32768, 32767]. -/
def toInt16 (v : ℤ) : ℤ :=
  (v + 32768) % 65536 - 32768

/-- The pixel computation of `arr_to_tif`:
`nodatavals[nodatavals == 0] = ndval` followed by
`segments[nodatavals == ndval] = nodatavals[nodatavals == ndval]`,
with `segments` first cast to int16. -/
def arr_to_tif_pixels (ndval : ℤ) (mask segments : List ℤ) : List ℤ :=
  let nodatavals := mask.map (fun m => if m = 0 then ndval else m)
  let segs := segments.map toInt16
  List.zipWith (fun m s => if m = ndval then m else s) nodatavals segs

/-- `Predict.arr_to_tif`: the written band and the written profile
(`out_meta = meta` with `count = 1` and `dtype = 'int16'`). -/
def arr_to_tif (ndval : ℤ) (mask segments : List ℤ) (meta : RasterMeta) :
    List ℤ × RasterMeta :=
  (arr_to_tif_pixels ndval mask segments,
   { meta with count := 1, dtype := "int16" })

theorem arr_to_tif_pixels_spec : ∀ (mask segments : List ℤ),
    (∀ m ∈ mask, m = 0 ∨ m = 255) → (∀ s ∈ segments, 0 ≤ s ∧ s ≤ 255) →
    arr_to_tif_pixels (-9999) mask segments =
      List.zipWith (fun m s => if m = 0 then (-9999 : ℤ) else s) mask segments := by
  intro mask
  induction mask with
  | nil =>
    intro segments _ _
    simp [arr_to_tif_pixels]
  | cons m ms ih =>
    intro segments hmask hseg
    cases segments with
    | nil => simp [arr_to_tif_pixels]
    | cons s ss =>
      have hm : m = 0 ∨ m = 255 := hmask m (by simp)
      have hs : 0 ≤ s ∧ s ≤ 255 := hseg s (by simp)
      have hcast : toInt16 s = s := by
        unfold toInt16
        omega
      have hrec := ih ss (fun x hx => hmask x (by simp [hx]))
        (fun x hx => hseg x (by simp [hx]))
      unfold arr_to_tif_pixels at hrec ⊢
      simp only [List.map_cons, List.zipWith_cons_cons]
      rw [hrec, hcast]
      rcases hm with rfl | rfl
      · norm_num
      · norm_num

/-- C8: when the output raster is written (the pipeline calls `arr_to_tif`
with `ndval = -9999`; the source mask band holds 0 at no-data pixels and 255
elsewhere, and the post-processed class values fit in a uint8), every pixel
that is no-data in the source is set to the no-data sentinel -9999, every
other pixel keeps its post-processed predicted class value, and the output
profile is the source's with `count = 1` and `dtype = 'int16'`. -/
theorem C8_output_write (mask segments : List ℤ) (meta : RasterMeta)
    (hmask : ∀ m ∈ mask, m = 0 ∨ m = 255)
    (hseg : ∀ s ∈ segments, 0 ≤ s ∧ s ≤ 255) :
    (arr_to_tif (-9999) mask segments meta).1 =
      List.zipWith (fun m s => if m = 0 then (-9999 : ℤ) else s) mask segments ∧
    (arr_to_tif (-9999) mask segments meta).2 =
      { meta with count := 1, dtype := "int16" } :=
  ⟨arr_to_tif_pixels_spec mask segments hmask hseg, rfl⟩

/-- Witness for C8_output_write: a 2x2 raster with one no-data pixel. -/
theorem C8_output_write_witness :
    (arr_to_tif (-9999) [0, 255, 255, 0] [3, 7, 0, 5] ⟨4, "uint16", 2, 2, "EPSG:32628"⟩).1 =
      List.zipWith (fun m s => if m = 0 then (-9999 : ℤ) else s)
        [0, 255, 255, 0] [3, 7, 0, 5] ∧
    (arr_to_tif (-9999) [0, 255, 255, 0] [3, 7, 0, 5] ⟨4, "uint16", 2, 2, "EPSG:32628"⟩).2 =
      { count := 1, dtype := "int16", width := 2, height := 2, crs := "EPSG:32628" } :=
  C8_output_write [0, 255, 255, 0] [3, 7, 0, 5] ⟨4, "uint16", 2, 2, "EPSG:32628"⟩
    (by decide) (by decide)

/-! ### C9: `CloudDataset.list_files` (lines 84-96) and `__init__` (lines 31-42)

`def list_files(self, dataset_dir: str, files_list: list = []):` — the
default `files_list` is one list object created at function definition time
and shared by every call that omits the argument; each call appends one
entry per file of `dataset_dir/images` and returns the same object.
`CloudDataset.__init__` calls `self.list_files(dataset_dir)` with the
default.
-/

/-- One `{'image': ..., 'label': ...}` entry. -/
structure TrainEntry where
  image : String
  label : String
deriving DecidableEq, Repr

/-- `os.path.join` for the simple shapes used here. -/
def pathJoin (d f : String) : String :=
  d ++ "/" ++ f

/-- The entries one `list_files` call appends: one per name in
`os.listdir(images_dir)` (`listing`), pairing the images and labels paths. -/
def newEntries (dataset_dir : String) (listing : List String) : List TrainEntry :=
  listing.map (fun i =>
    { image := pathJoin (pathJoin dataset_dir "images") i,
      label := pathJoin (pathJoin dataset_dir "labels") i })

/-- `CloudDataset.list_files`: appends the new entries to `files_list` and
returns that same (shared) list. -/
def list_files (dataset_dir : String) (listing : List String)
    (files_list : List TrainEntry) : List TrainEntry :=
  files_list ++ newEntries dataset_dir listing

/-- Value of the shared default `files_list=[]` object after `k` calls of
`list_files` that omit the argument (each `CloudDataset` construction makes
one such call); the `k`-th call returns this value. -/
def sharedDefault (dataset_dir : String) (listing : List String) : ℕ → List TrainEntry
  | 0 => []
  | k + 1 => list_files dataset_dir listing (sharedDefault dataset_dir listing k)

/-- C9: the default accumulator is shared across calls: the `(k+1)`-th call
of `list_files` without an explicit `files_list` returns a list of length
`(k+1) * n` (for `n` files in the images directory) that extends the
`k`-th call's result by the fresh entries and still contains every entry
appended by earlier calls — so a `CloudDataset` constructed after another
reports the earlier dataset's files in its `__len__` and items as well as
its own. -/
theorem C9_shared_default (dataset_dir : String) (listing : List String) (k : ℕ) :
    (sharedDefault dataset_dir listing (k + 1)).length = (k + 1) * listing.length ∧
    sharedDefault dataset_dir listing (k + 1) =
      sharedDefault dataset_dir listing k ++ newEntries dataset_dir listing ∧
    (∀ e ∈ sharedDefault dataset_dir listing k,
      e ∈ sharedDefault dataset_dir listing (k + 1)) := by
  refine ⟨?_, rfl, ?_⟩
  · induction k with
    | zero => simp [sharedDefault, list_files, newEntries]
    | succ k ih =>
      have hstep : (sharedDefault dataset_dir listing (k + 2)).length =
          (sharedDefault dataset_dir listing (k + 1)).length + listing.length := by
        simp [sharedDefault, list_files, newEntries]
        omega
      rw [hstep, ih]
      ring
  · intro e he
    exact List.mem_append.mpr (Or.inl he)

/-- Witness for C9_shared_default: two files in the images directory, second
dataset construction: its file list has length 4 and extends the first
dataset's. -/
theorem C9_shared_default_witness :
    (sharedDefault "d" ["a.tif", "b.tif"] (1 + 1)).length =
      (1 + 1) * ["a.tif", "b.tif"].length ∧
    sharedDefault "d" ["a.tif", "b.tif"] (1 + 1) =
      sharedDefault "d" ["a.tif", "b.tif"] 1 ++ newEntries "d" ["a.tif", "b.tif"] ∧
    (∀ e ∈ sharedDefault "d" ["a.tif", "b.tif"] 1,
      e ∈ sharedDefault "d" ["a.tif", "b.tif"] (1 + 1)) :=
  C9_shared_default "d" ["a.tif", "b.tif"] 1

/-! ### C10: augmentation in `CloudDataset.__getitem__` (lines 48-79)

The image tensor `x` is channel-first `(C, H, W)`, the mask `y` is `(H, W)`.
`torch.fliplr` flips dimension 1 — `H` for `x` but `W` for `y` — and
`torch.flipud` flips dimension 0 — the channel axis for `x` but `H` for `y`;
only the `torch.rot90` branches pass explicit spatial dims (`[1, 2]` for
`x`, `[0, 1]` for `y`).  Tensors are modelled as nested lists (outer list =
dimension 0).
-/

/-- `torch.fliplr`: flip along dimension 1 (reverse every dimension-0
slice). -/
def fliplr {α : Type} (t : List (List α)) : List (List α) :=
  t.map List.reverse

/-- `torch.flipud`: flip along dimension 0. -/
def flipud {α : Type} (t : List α) : List α :=
  t.reverse

/-- `torch.rot90(t, k=1, dims=[0, 1])` on a 2D tensor: one counterclockwise
quarter turn. -/
def rot90 {α : Type} (m : List (List α)) : List (List α) :=
  (List.transpose m).reverse

/-- The augmentation block of `__getitem__`, with one boolean per
`np.random.random_sample() > 0.5` draw, applied to the `(C, H, W)` image and
`(H, W)` mask exactly as the code does: `fliplr`/`flipud` on both tensors
as-is, `rot90` with `dims=[1, 2]` on the image (per-channel) and
`dims=[0, 1]` on the mask. -/
def augmentPair (lr ud r90 r180 r270 : Bool)
    (x : List (List (List ℤ))) (y : List (List ℤ)) :
    List (List (List ℤ)) × List (List ℤ) :=
  let p1 := if lr then (fliplr x, fliplr y) else (x, y)
  let p2 := if ud then (flipud p1.1, flipud p1.2) else p1
  let p3 := if r90 then (p2.1.map rot90, rot90 p2.2) else p2
  let p4 := if r180 then (p3.1.map (fun c => rot90 (rot90 c)), rot90 (rot90 p3.2)) else p3
  if r270 then (p4.1.map (fun c => rot90 (rot90 (rot90 c))), rot90 (rot90 (rot90 p4.2)))
  else p4

/-- C10: the flips break pixel alignment.  Starting from an aligned pair — a
single-channel image whose channel equals the mask — the left-right-flip
branch flips the image along `H` (dimension 1 of `(C, H, W)`) but the mask
along `W` (dimension 1 of `(H, W)`), and the up-down-flip branch flips the
image along the channel axis (leaving a single-channel image unchanged) but
the mask along `H`; in both cases the returned image channel no longer
equals the returned mask, refuting the claimed axis agreement. -/
theorem C10_flip_misalignment :
    ((augmentPair true false false false false [[[1, 2], [3, 4]]] [[1, 2], [3, 4]]).1
       = [[[3, 4], [1, 2]]] ∧
     (augmentPair true false false false false [[[1, 2], [3, 4]]] [[1, 2], [3, 4]]).2
       = [[2, 1], [4, 3]] ∧
     (augmentPair true false false false false [[[1, 2], [3, 4]]] [[1, 2], [3, 4]]).1
       ≠ [(augmentPair true false false false false [[[1, 2], [3, 4]]] [[1, 2], [3, 4]]).2]) ∧
    ((augmentPair false true false false false [[[1, 2], [3, 4]]] [[1, 2], [3, 4]]).1
       = [[[1, 2], [3, 4]]] ∧
     (augmentPair false true false false false [[[1, 2], [3, 4]]] [[1, 2], [3, 4]]).2
       = [[3, 4], [1, 2]] ∧
     (augmentPair false true false false false [[[1, 2], [3, 4]]] [[1, 2], [3, 4]]).1
       ≠ [(augmentPair false true false false false [[[1, 2], [3, 4]]] [[1, 2], [3, 4]]).2]) := by
  decide

end CNNPipeline
